import Mathlib

/-!
Verification of the `hues` logging library (C sources `hues.c` / `flexclog.c`)
against its natural-language specification.

The development is a shallow embedding of the C code:

* C strings are `List Char` values that never contain the NUL character;
  the NUL terminator of a C string is represented by the end of the list.
* `size_t` values are `Nat`; pointer differences that the code stores in a
  `size_t` are wrapped with `sizeSub` (mod `2 ^ 64`) where the source can
  underflow.  Signed quantities (`int`, `ssize_t`, pointer differences passed
  as callback capacities) are `Int`.
* The libc routines the code calls (`strncmp`, `snprintf` digit rendering,
  `vsnprintf`) are modelled by the executable functions `strncmpZ`,
  `natDecimal` / `natHex`, and by an explicit `VsnModel` parameter.
* A `va_list` is the list of the caller-supplied variadic slots, in order
  (`List HuesArg`).  Callbacks receive the cursor and return the advanced
  cursor, mirroring the x86-64 behaviour the code relies on, where a callee's
  `va_arg` advances the caller's cursor.
* The output buffer of the expansion engines is modelled by the ordered list
  of content bytes stored (`out`), together with the running pointer offset
  (`off`).  The two agree positionally whenever every formatter call returns
  exactly the number of bytes it stored, which holds in every concrete
  scenario evaluated below; `off` alone (which is exact unconditionally)
  is used for the capacity/overflow results.
-/

/-- One digit of `printf` rendering, lowercase as produced by `%x`/`%d`. -/
def digitChar (n : Nat) : Char :=
  if n = 0 then '0' else if n = 1 then '1' else if n = 2 then '2'
  else if n = 3 then '3' else if n = 4 then '4' else if n = 5 then '5'
  else if n = 6 then '6' else if n = 7 then '7' else if n = 8 then '8'
  else if n = 9 then '9' else if n = 10 then 'a' else if n = 11 then 'b'
  else if n = 12 then 'c' else if n = 13 then 'd' else if n = 14 then 'e'
  else 'f'

/-- Least-significant-first decimal digits of `n`, with explicit fuel
(`fuel ≥ n` suffices, and every call site uses `fuel = n`). -/
def natDecAux : Nat → Nat → List Char
  | 0, _ => []
  | f + 1, n => if n = 0 then [] else digitChar (n % 10) :: natDecAux f (n / 10)

/-- Decimal rendering of a natural number as `printf %u`/`%d` produces it. -/
def natDecimal (n : Nat) : List Char :=
  if n = 0 then ['0'] else (natDecAux n n).reverse

/-- Decimal rendering of an `int` as `printf %d` produces it. -/
def intDecimal (n : Int) : List Char :=
  if n < 0 then '-' :: natDecimal n.natAbs else natDecimal n.toNat

/-- Least-significant-first lowercase hexadecimal digits of `n`, with fuel. -/
def natHexAux : Nat → Nat → List Char
  | 0, _ => []
  | f + 1, n => if n = 0 then [] else digitChar (n % 16) :: natHexAux f (n / 16)

/-- Lowercase hexadecimal rendering of a natural number (`printf %x`). -/
def natHex (n : Nat) : List Char :=
  if n = 0 then ['0'] else (natHexAux n n).reverse

/-- Zero padding to field width 2, as the `%02x` conversion performs it. -/
def pad2 (l : List Char) : List Char :=
  List.replicate (2 - l.length) '0' ++ l

/-- RGB color (struct `hues_color`, fields `uint8_t r, g, b`). -/
structure hues_color where
  r : Nat
  g : Nat
  b : Nat
deriving DecidableEq

/-- Translation of `hues_hex_to_color` (src/hues.c:107-113): extracts the
three bytes of a 24-bit value with shifts and `& 0xFF` masks. -/
def hues_hex_to_color (hex : Nat) : hues_color :=
  { r := (hex >>> 16) &&& 255, g := (hex >>> 8) &&& 255, b := hex &&& 255 }

/-- Translation of `hues_color_to_hex` (src/hues.c:115-117):
`sprintf(hex, "#%02x%02x%02x", r, g, b)`. -/
def hues_color_to_hex (clr : hues_color) : List Char :=
  '#' :: (pad2 (natHex clr.r) ++ pad2 (natHex clr.g) ++ pad2 (natHex clr.b))

/-- The 6-digit lowercase hexadecimal rendering of a 24-bit value,
most significant digit first (reference definition for the round-trip). -/
def hex6 (v : Nat) : List Char :=
  [digitChar (v / 1048576 % 16), digitChar (v / 65536 % 16),
   digitChar (v / 4096 % 16), digitChar (v / 256 % 16),
   digitChar (v / 16 % 16), digitChar (v % 16)]

/-- A logging level value (struct `hues_level`: enum value plus name). -/
structure hues_level_struct where
  level : Nat
  name : List Char
deriving DecidableEq

/-- A call-site record (struct `hues_code_location`). -/
structure hues_code_location where
  file : List Char
  method_name : List Char
  line : Nat
deriving DecidableEq

/-- One variadic argument slot of a `va_list`. -/
inductive HuesArg where
  | lvlArg (l : hues_level_struct)
  | locArg (c : hues_code_location)
  | intArg (n : Int)
deriving DecidableEq

/-- Result of one formatter-callback invocation: the bytes it stored, its
`size_t` return value, and the advanced argument cursor (on x86-64 a
callee's `va_arg` advances the caller's cursor, which the code relies on). -/
structure FmtResult where
  bytes : List Char
  ret : Nat
  args : List HuesArg

/-- A format entry (struct `hues_format`): specifier text plus callback. -/
structure hues_format where
  specifier : List Char
  format_function : Int → Char → List HuesArg → FmtResult

/-- Model of `strncmp(x, y, n) == 0` on NUL-terminated strings; the lists
end where the C strings have their NUL byte, so comparison stops early when
both strings end and fails when only one does. -/
def strncmpZ : List Char → List Char → Nat → Bool
  | _, _, 0 => true
  | [], [], _ + 1 => true
  | [], _ :: _, _ + 1 => false
  | _ :: _, [], _ + 1 => false
  | a :: x, b :: y, n + 1 => if a = b then strncmpZ x y n else false

/-- Content bytes an `snprintf`-style call stores when told the buffer has
`room` bytes: one byte is reserved for the terminator, and a negative `room`
is a wrapped-around huge `size_t`, so the whole string is stored. -/
def snprWrites (room : Int) (s : List Char) : List Char :=
  if room = 0 then [] else if room < 0 then s else s.take (room.toNat - 1)

/-- Model of the external `vsnprintf(format_result, BUFFER_SIZE, token, ap)`
call: `some s` means the call returns `s.length` and stores `s.take 4095`
into the zeroed scratch buffer; `none` means it returns a negative value. -/
def VsnModel : Type :=
  List Char → List HuesArg → Option (List Char)

/-- Modelled from the observed behaviour of glibc `vsnprintf` at the tokens
exercised in this development: `"%d"` renders the next argument slot in
decimal (undefined behaviour if that slot is not an `int`, modelled as a
negative return), and any other token is reproduced literally (hence it is
rejected by the probe in `hues_format_pv_core`). -/
def vsnDefault : VsnModel := fun token args =>
  if token = ['%', 'd'] then
    match args with
    | HuesArg.intArg n :: _ => some (intDecimal n)
    | _ => none
  else some token

/-- `size_t` subtraction `a - b` with wraparound modulo `2 ^ 64`. -/
def sizeSub (a b : Nat) : Nat :=
  (18446744073709551616 + a - b) % 18446744073709551616

/-- The character at the head of the tail of a C string: the NUL byte once
the string has ended. -/
def headCharZ (l : List Char) : Char :=
  l.headD (Char.ofNat 0)

/-- The inner registry scan of the expansion engines: the first entry (in
registry order) whose specifier matches the next `len` template characters
under `strncmp` semantics. -/
def findSpecAt (fmts : List hues_format) (rest : List Char) (len : Nat) :
    Option hues_format :=
  fmts.find? (fun f => strncmpZ rest f.specifier len)

/-- The specifier lookup of `hues_format_pv_core` / `hues_format_cv_core`:
lengths 3, 2, 1 are tried in that order (longest first) and within a length
the first matching registry entry wins. -/
def findSpec (fmts : List hues_format) (rest : List Char) :
    Option (hues_format × Nat) :=
  match findSpecAt fmts rest 3 with
  | some f => some (f, 3)
  | none =>
    match findSpecAt fmts rest 2 with
    | some f => some (f, 2)
    | none =>
      match findSpecAt fmts rest 1 with
      | some f => some (f, 1)
      | none => none

/-- Mutable locals of one engine run: bytes stored so far, the offset
`buffptr - buffer`, and the argument cursor. -/
structure PvSt where
  out : List Char
  off : Nat
  args : List HuesArg
deriving DecidableEq

/-- A guarded single-byte store, `if (buffptr < buffend) *buffptr++ = c;`,
where `buffEnd` is the offset of `buffend`. -/
def litWrite (buffEnd : Nat) (st : PvSt) (c : Char) : PvSt :=
  if st.off < buffEnd then
    { out := st.out ++ [c], off := st.off + 1, args := st.args }
  else st

/-- One probe of the secondary conversion syntax (src/hues.c:299-314):
format the candidate token against a copy of the argument cursor and accept
exactly when the result is non-negative, fits the scratch buffer, and is not
byte-identical to the token. -/
def probeAccept (vsn : VsnModel) (token : List Char) (args : List HuesArg) :
    Option (List Char) :=
  match vsn token args with
  | none => none
  | some s => if s.length < 4096 ∧ s.take 4095 ≠ token then some s else none

/-- The probe loop of `hues_format_pv_core`: candidate lengths 1, 2, 3 in
order, each token being the marker plus that many characters, cut short at
the template's end (the `strncpy` into the zeroed `tempbuff`). -/
def pvProbe (vsn : VsnModel) (tpl : List Char) (args : List HuesArg) :
    Option (Nat × List Char) :=
  match probeAccept vsn (tpl.take 2) args with
  | some s => some (1, s)
  | none =>
    match probeAccept vsn (tpl.take 3) args with
    | some s => some (2, s)
    | none =>
      match probeAccept vsn (tpl.take 4) args with
      | some s => some (3, s)
      | none => none

/-- One iteration of the `hues_format_pv_core` loop at template position
`c :: rest`: returns how many template characters the iteration consumed and
the updated locals.  `buffend` is at offset `cap - 1`. -/
def pvStep (vsn : VsnModel) (cap : Nat) (pref : Char) (fmts : List hues_format)
    (c : Char) (rest : List Char) (st : PvSt) : Nat × PvSt :=
  if c = pref then
    match findSpec fmts rest with
    | some (f, len) =>
      let r := f.format_function ((cap : Int) - 1 - (st.off : Int)) (headCharZ rest) st.args
      (len + 1, { out := st.out ++ r.bytes, off := st.off + r.ret, args := r.args })
    | none => (1, litWrite (cap - 1) st c)
  else if c = '%' then
    match pvProbe vsn (c :: rest) st.args with
    | some (len, s) =>
      let w := s.take (cap - 1 - st.off)
      (len + 1, { out := st.out ++ w, off := st.off + w.length, args := st.args.drop 1 })
    | none => (1, litWrite (cap - 1) st c)
  else (1, litWrite (cap - 1) st c)

/-- The scan loop of `hues_format_pv_core`.  The fuel argument is the length
of the remaining template, which bounds the iteration count because every
iteration consumes at least one character. -/
def pvGo (vsn : VsnModel) (cap : Nat) (pref : Char) (fmts : List hues_format) :
    Nat → List Char → PvSt → PvSt
  | _, [], st => st
  | 0, _ :: _, st => st
  | fuel + 1, c :: rest, st =>
    let kst := pvStep vsn cap pref fmts c rest st
    pvGo vsn cap pref fmts fuel (rest.drop (kst.1 - 1)) kst.2

/-- Observable result of one engine call: the stored content bytes, the
returned length `buffptr - buffer`, whether the NUL terminator ended up
inside the `cap`-byte buffer, and the advanced argument cursor. -/
structure FmtCoreResult where
  out : List Char
  written : Nat
  termIn : Bool
  args : List HuesArg
deriving DecidableEq

/-- Translation of `hues_format_pv_core` (src/hues.c:258-336).  `buffend` is
`buffer + buffer_size - 1` (one byte reserved for the terminator), matching
specifiers are dispatched longest-first, `%` starts the probe of the
secondary conversion syntax, and the final `*buffptr = 0` store is performed
unconditionally, so it lands inside the buffer exactly when `off < cap`. -/
def hues_format_pv_core (vsn : VsnModel) (cap : Nat) (pref : Char)
    (fmts : List hues_format) (tpl : List Char) (args : List HuesArg) :
    FmtCoreResult :=
  let st := pvGo vsn cap pref fmts tpl.length tpl { out := [], off := 0, args := args }
  { out := st.out, written := st.off, termIn := decide (st.off < cap), args := st.args }

/-- One iteration of the `hues_format_cv_core` loop (src/hues.c:176-208):
`buffend` is `buffer + buffer_size` (no byte reserved), there is no
secondary syntax, and a prefix with no matching specifier stores the prefix
character alone while advancing the scan by `spec_len + 1 = 2` characters
(`spec_len` is initialized to 1 in this engine). -/
def cvStep (cap : Nat) (pref : Char) (fmts : List hues_format)
    (c : Char) (rest : List Char) (st : PvSt) : Nat × PvSt :=
  if c = pref then
    match findSpec fmts rest with
    | some (f, len) =>
      let r := f.format_function ((cap : Int) - (st.off : Int)) (headCharZ rest) st.args
      (len + 1, { out := st.out ++ r.bytes, off := st.off + r.ret, args := r.args })
    | none => (2, litWrite cap st c)
  else (1, litWrite cap st c)

/-- The scan loop of `hues_format_cv_core`, fuelled like `pvGo`. -/
def cvGo (cap : Nat) (pref : Char) (fmts : List hues_format) :
    Nat → List Char → PvSt → PvSt
  | _, [], st => st
  | 0, _ :: _, st => st
  | fuel + 1, c :: rest, st =>
    let kst := cvStep cap pref fmts c rest st
    cvGo cap pref fmts fuel (rest.drop (kst.1 - 1)) kst.2

/-- Translation of `hues_format_cv_core` (src/hues.c:171-214): the
terminator is stored only when `buffptr < buffend` still holds at the end. -/
def hues_format_cv_core (cap : Nat) (pref : Char) (fmts : List hues_format)
    (tpl : List Char) (args : List HuesArg) : FmtCoreResult :=
  let st := cvGo cap pref fmts tpl.length tpl { out := [], off := 0, args := args }
  { out := st.out, written := st.off, termIn := decide (st.off < cap), args := st.args }

/-- A flexclog format entry (struct `fc_fmt_t` in flexclog.h): specifier
text plus callback, the flexclog twin of `hues_format`. -/
structure fc_fmt_t where
  spec : List Char
  fmt_func : Int → Char → List HuesArg → FmtResult

/-- The evident correspondence between the two modules' registry entries. -/
def fcOfHues (f : hues_format) : fc_fmt_t :=
  { spec := f.specifier, fmt_func := f.format_function }

/-- The inner registry scan of `fc_fmt_pvc`. -/
def fcFindSpecAt (fmts : List fc_fmt_t) (rest : List Char) (len : Nat) :
    Option fc_fmt_t :=
  fmts.find? (fun f => strncmpZ rest f.spec len)

/-- The specifier lookup of `fc_fmt_pvc`: lengths 3, 2, 1 longest-first. -/
def fcFindSpec (fmts : List fc_fmt_t) (rest : List Char) :
    Option (fc_fmt_t × Nat) :=
  match fcFindSpecAt fmts rest 3 with
  | some f => some (f, 3)
  | none =>
    match fcFindSpecAt fmts rest 2 with
    | some f => some (f, 2)
    | none =>
      match fcFindSpecAt fmts rest 1 with
      | some f => some (f, 1)
      | none => none

/-- One probe of the secondary conversion syntax in `fc_fmt_pvc`
(flexclog.c lines 204-219). -/
def fcProbeAccept (vsn : VsnModel) (token : List Char) (args : List HuesArg) :
    Option (List Char) :=
  match vsn token args with
  | none => none
  | some s => if s.length < 4096 ∧ s.take 4095 ≠ token then some s else none

/-- The probe loop of `fc_fmt_pvc`: candidate lengths 1, 2, 3 in order. -/
def fcProbe (vsn : VsnModel) (tpl : List Char) (args : List HuesArg) :
    Option (Nat × List Char) :=
  match fcProbeAccept vsn (tpl.take 2) args with
  | some s => some (1, s)
  | none =>
    match fcProbeAccept vsn (tpl.take 3) args with
    | some s => some (2, s)
    | none =>
      match fcProbeAccept vsn (tpl.take 4) args with
      | some s => some (3, s)
      | none => none

/-- One iteration of the `fc_fmt_pvc` loop (flexclog.c lines 169-237). -/
def fcStep (vsn : VsnModel) (cap : Nat) (pref : Char) (fmts : List fc_fmt_t)
    (c : Char) (rest : List Char) (st : PvSt) : Nat × PvSt :=
  if c = pref then
    match fcFindSpec fmts rest with
    | some (f, len) =>
      let r := f.fmt_func ((cap : Int) - 1 - (st.off : Int)) (headCharZ rest) st.args
      (len + 1, { out := st.out ++ r.bytes, off := st.off + r.ret, args := r.args })
    | none => (1, litWrite (cap - 1) st c)
  else if c = '%' then
    match fcProbe vsn (c :: rest) st.args with
    | some (len, s) =>
      let w := s.take (cap - 1 - st.off)
      (len + 1, { out := st.out ++ w, off := st.off + w.length, args := st.args.drop 1 })
    | none => (1, litWrite (cap - 1) st c)
  else (1, litWrite (cap - 1) st c)

/-- The scan loop of `fc_fmt_pvc`, fuelled like `pvGo`. -/
def fcGo (vsn : VsnModel) (cap : Nat) (pref : Char) (fmts : List fc_fmt_t) :
    Nat → List Char → PvSt → PvSt
  | _, [], st => st
  | 0, _ :: _, st => st
  | fuel + 1, c :: rest, st =>
    let kst := fcStep vsn cap pref fmts c rest st
    fcGo vsn cap pref fmts fuel (rest.drop (kst.1 - 1)) kst.2

/-- Translation of `fc_fmt_pvc` (src/unnamed/part_002, lines 163-241), the
flexclog duplicate of `hues_format_pv_core`. -/
def fc_fmt_pvc (vsn : VsnModel) (cap : Nat) (pref : Char)
    (fmts : List fc_fmt_t) (tpl : List Char) (args : List HuesArg) :
    FmtCoreResult :=
  let st := fcGo vsn cap pref fmts tpl.length tpl { out := [], off := 0, args := args }
  { out := st.out, written := st.off, termIn := decide (st.off < cap), args := st.args }

/-- Translation of `hues_function_format_level` (src/hues.c:354-357):
`va_arg(list, hues_level)` followed by
`snprintf(buffer, buffer_size, "%s", level.name)`, so the callback consumes
one argument slot and returns the full name length.  A `va_arg` on a slot
that does not hold a level is undefined behaviour in C; the fallback arm is
a placeholder that no theorem below relies on. -/
def hues_function_format_level : Int → Char → List HuesArg → FmtResult :=
  fun cap _ args =>
    match args with
    | HuesArg.lvlArg l :: rest =>
      { bytes := snprWrites cap l.name, ret := l.name.length, args := rest }
    | other => { bytes := [], ret := 0, args := other.drop 1 }

/-- Test fixture: a registered callback that stores nothing. -/
def fmtNull : Int → Char → List HuesArg → FmtResult := fun _ _ args =>
  { bytes := [], ret := 0, args := args }

/-- Test fixture: a registered callback that stores a single star byte. -/
def fmtStar : Int → Char → List HuesArg → FmtResult := fun _ _ args =>
  { bytes := ['*'], ret := 1, args := args }

/-- A theme entry (struct `hues_level_format`). -/
structure hues_level_format where
  level : Nat
  background_color : hues_color
  foreground_color : hues_color
deriving DecidableEq

/-- The global configuration (struct `hues_configuration`); `theme` is the
`format` array of the configured `hues_theme`, and `pref` is the prefix
character member. -/
structure hues_configuration where
  minimum_level : Nat
  header_format : List Char
  pref : Char
  theme : List hues_level_format
  levels_count : Nat
  formats : List hues_format

/-- A log message (struct `hues_message`).  The location member is only ever
read by formatter callbacks through the argument cursor, so it is not a
field the renderer touches. -/
structure hues_message where
  level : hues_level_struct
  contents : List Char

/-- What one `hues_log_message_v` call emits: the bytes printed to stdout
and the bytes printed to stderr. -/
structure RenderResult where
  console : List Char
  err : List Char
deriving DecidableEq

/-- The background escape `ESC_SEQ_BG` (`"\x1b[48;2;%d;%d;%dm"`) rendered
for a color. -/
def escBg (c : hues_color) : List Char :=
  "\x1b[48;2;".toList ++ natDecimal c.r ++ [';'] ++ natDecimal c.g ++ [';'] ++
    natDecimal c.b ++ ['m']

/-- The foreground escape `ESC_SEQ_FG` (`"\x1b[38;2;%d;%d;%dm"`) rendered
for a color. -/
def escFg (c : hues_color) : List Char :=
  "\x1b[38;2;".toList ++ natDecimal c.r ++ [';'] ++ natDecimal c.g ++ [';'] ++
    natDecimal c.b ++ ['m']

/-- The reset escape `ESC_SEQ_RST`. -/
def escRst : List Char := "\x1b[0m".toList

/-- The diagnostic line
`fprintf(stderr, "No color configuration found for level %d\n", ...)`. -/
def errNoColor (level : Nat) : List Char :=
  "No color configuration found for level ".toList ++ natDecimal level ++ ['\n']

/-- Translation of `hues_log_message_v` (src/hues.c:397-423).  `junk` models
the indeterminate initial value of the uninitialized local
`hues_level_format* theme_level` (`none` = a NULL bit pattern, `some g` = a
non-null garbage pointer): the lookup loop only overwrites it when some
theme entry matches the message's level.  The two escape-sequence `snprintf`
calls always fit their (over-)declared 4096-byte capacities, so they are
modelled as full writes; the header expansion is called with capacity
`sizeof(buffer)` = 4096 exactly as in the source, the body expansion with
`sizeof(buffer) - written`, and the final reset write keeps its declared
capacity `sizeof(buffer) - written - index`.  The writing part of the call
(everything after a successful theme lookup) is factored into
`hues_render_body`; `hues_log_message_v` itself holds the minimum-level
gate, the theme-lookup loop and the uninitialized-pointer error check. -/
def hues_render_body (vsn : VsnModel) (conf : hues_configuration)
    (msg : hues_message) (args : List HuesArg)
    (theme_level : hues_level_format) : List Char :=
  let w0 := escBg theme_level.background_color
  let w1 := escFg theme_level.foreground_color
  let rh := hues_format_pv_core vsn 4096 conf.pref conf.formats
    conf.header_format args
  let rb := hues_format_pv_core vsn
    (sizeSub 4096 (w0.length + w1.length + rh.written))
    conf.pref conf.formats msg.contents rh.args
  let out := w0 ++ w1 ++ rh.out ++ rb.out
  let written := w0.length + w1.length + rh.written + rb.written
  let lastB := out.getD (written - 1) (Char.ofNat 0)
  let wIdx := if lastB = '\n' then written - 1 else written
  let rstW := escRst.take (sizeSub 4096 wIdx - 1)
  out.take wIdx ++ rstW ++ (if lastB = '\n' then ['\n'] else [])

def hues_log_message_v (vsn : VsnModel) (conf : hues_configuration)
    (junk : Option hues_level_format) (msg : hues_message)
    (args : List HuesArg) : RenderResult :=
  if msg.level.level < conf.minimum_level then { console := [], err := [] }
  else
    match ((conf.theme.take conf.levels_count).find?
        (fun t => t.level == msg.level.level)).orElse (fun _ => junk) with
    | none => { console := [], err := errNoColor msg.level.level }
    | some theme_level =>
      { console := hues_render_body vsn conf msg args theme_level, err := [] }

/-- The registry entry `{ "L", hues_function_format_level }` registered by
`hues_register_format_functions` (src/hues.c:438). -/
def hues_L_entry : hues_format :=
  { specifier := ['L'], format_function := hues_function_format_level }

/-- The `INFO` level value from hues.h (`{ HUES_LEVEL_INFO, "INFO" }`). -/
def lvlINFO : hues_level_struct := { level := 2, name := "INFO".toList }

/-- The `TRACE` level value from hues.h. -/
def lvlTRACE : hues_level_struct := { level := 0, name := "TRACE".toList }

/-- The `CRITICAL` level value from hues.h. -/
def lvlCRITICAL : hues_level_struct := { level := 5, name := "CRITICAL".toList }

/-- A 7-entry theme whose entries cover levels 0-4 and 6 (twice) but not
level 5: a theme with no entry for the `CRITICAL` severity. -/
def themeNoCritical : List hues_level_format :=
  [{ level := 0, background_color := ⟨1, 1, 1⟩, foreground_color := ⟨2, 2, 2⟩ },
   { level := 1, background_color := ⟨1, 1, 1⟩, foreground_color := ⟨2, 2, 2⟩ },
   { level := 2, background_color := ⟨1, 1, 1⟩, foreground_color := ⟨2, 2, 2⟩ },
   { level := 3, background_color := ⟨1, 1, 1⟩, foreground_color := ⟨2, 2, 2⟩ },
   { level := 4, background_color := ⟨1, 1, 1⟩, foreground_color := ⟨2, 2, 2⟩ },
   { level := 6, background_color := ⟨1, 1, 1⟩, foreground_color := ⟨2, 2, 2⟩ },
   { level := 6, background_color := ⟨1, 1, 1⟩, foreground_color := ⟨2, 2, 2⟩ }]

/-- A configuration whose active theme is `themeNoCritical`. -/
def confNoCritical : hues_configuration :=
  { minimum_level := 0, header_format := [], pref := '#',
    theme := themeNoCritical, levels_count := 7, formats := [] }

/-- A `CRITICAL` message with body `"x"`. -/
def msgCritical : hues_message := { level := lvlCRITICAL, contents := ['x'] }

/-- A non-null garbage value for the uninitialized `theme_level` local. -/
def junkEntry : hues_level_format :=
  { level := 0, background_color := ⟨9, 9, 9⟩, foreground_color := ⟨9, 9, 9⟩ }

/-- Test fixture registry entry with specifier `"a"`. -/
def fmtEntryA : hues_format := { specifier := ['a'], format_function := fmtNull }

/-- Test fixture registry entry with specifier `"ab"`. -/
def fmtEntryAB : hues_format := { specifier := ['a', 'b'], format_function := fmtStar }

/-- The configuration of the C2 scenario: header template `"#L"`, prefix
`'#'`, a theme with one entry for the given level, and the `L` registry
entry. -/
def c2entry (L : hues_level_struct) : hues_level_format :=
  { level := L.level, background_color := ⟨24, 24, 24⟩,
    foreground_color := ⟨24, 24, 24⟩ }

def c2conf (L : hues_level_struct) : hues_configuration :=
  { minimum_level := 0, header_format := ['#', 'L'], pref := '#',
    theme := [c2entry L], levels_count := 7, formats := [hues_L_entry] }

/-- The message of the C2 scenario: body template `"%d"`. -/
def c2msg (L : hues_level_struct) : hues_message :=
  { level := L, contents := ['%', 'd'] }

/-! ### Theorems -/

/-- Claim C1 (refuted by the code; the safety invariant is clearly the
intent — `hues_format_pv_core` even carries the comment "Reserve space for
null terminator" — so this is a code bug).  `hues_format_cv_core` reserves
no terminator byte: on template `"ab"` with capacity 2 it stores 2 content
bytes, returns `written = 2 > capacity - 1`, and stores no terminator.
`hues_format_pv_core` advances the output cursor by the callback's raw
return value: with capacity 2 and template `"#L"`, the `snprintf`-based
level formatter returns the full name length 5, so `written = 5 > 1` and
the unconditional terminator store lands outside the buffer. -/
theorem c1_capacity_invariant_violated :
    (hues_format_cv_core 2 '#' [] ['a', 'b'] []).written = 2 ∧
    ¬ (hues_format_cv_core 2 '#' [] ['a', 'b'] []).written ≤ 2 - 1 ∧
    (hues_format_cv_core 2 '#' [] ['a', 'b'] []).termIn = false ∧
    (hues_format_pv_core vsnDefault 2 '#' [hues_L_entry] ['#', 'L']
        [HuesArg.lvlArg lvlTRACE]).written = 5 ∧
    ¬ (hues_format_pv_core vsnDefault 2 '#' [hues_L_entry] ['#', 'L']
        [HuesArg.lvlArg lvlTRACE]).written ≤ 2 - 1 ∧
    (hues_format_pv_core vsnDefault 2 '#' [hues_L_entry] ['#', 'L']
        [HuesArg.lvlArg lvlTRACE]).termIn = false := by
  decide

/-- Counterexample to claim C2 as stated: the header expansion of `"#L"`
does consume an argument — `hues_function_format_level` executes
`va_arg(list, hues_level)` — so the cursor handed to the body no longer
contains the severity slot. -/
theorem c2_header_L_consumes_argument :
    (hues_format_pv_core vsnDefault 4096 '#' [hues_L_entry] ['#', 'L']
        [HuesArg.lvlArg lvlINFO, HuesArg.intArg 42]).args = [HuesArg.intArg 42] ∧
    [HuesArg.intArg 42] ≠ [HuesArg.lvlArg lvlINFO, HuesArg.intArg 42] := by
  decide

/-- Counterexample to claim C3 as stated: in `hues_format_cv_core` a prefix
character with no matching specifier consumes 2 input characters, not 1
(`spec_len` is initialized to 1 and the scan advances by `spec_len + 1`), so
expanding `"#ab"` against an empty registry echoes the prefix but silently
drops the following `'a'`. -/
theorem c3_cv_core_consumes_two_on_no_match :
    (cvStep 8 '#' [] '#' ['a', 'b'] { out := [], off := 0, args := [] }).1 = 2 ∧
    (2 : Nat) ≠ 1 ∧
    (cvStep 8 '#' [] '#' ['a', 'b'] { out := [], off := 0, args := [] }).2.out = ['#'] ∧
    (hues_format_cv_core 8 '#' [] ['#', 'a', 'b'] []).out = ['#', 'b'] ∧
    (['#', 'b'] : List Char) ≠ ['#', 'a', 'b'] := by
  decide

/-- Claim C6 (refuted by the code; the explicit `if (!theme_level)` check
and diagnostic `fprintf` show the claim is the intent, so this is a code
bug).  The local `theme_level` is never initialized, so when the active
theme has no entry for the message's severity the NULL check reads an
indeterminate value: with non-null stack garbage the render proceeds and
emits output with garbage colors and no diagnostic, while only a zero bit
pattern produces the intended error-and-abort behaviour. -/
theorem c6_missing_theme_uninitialized_read :
    (hues_log_message_v vsnDefault confNoCritical (some junkEntry) msgCritical []).err = [] ∧
    (hues_log_message_v vsnDefault confNoCritical (some junkEntry) msgCritical []).console ≠ [] ∧
    (hues_log_message_v vsnDefault confNoCritical none msgCritical []).console = [] ∧
    (hues_log_message_v vsnDefault confNoCritical none msgCritical []).err = errNoColor 5 := by
  decide

/-- Counterexample to claim C7 as stated: `hues_format_pv_core` truncates to
`capacity - 1` content bytes (one byte is reserved for the terminator), so
with capacity 2 the prefix-free template `"ab"` expands to `"a"`, not to the
input truncated to 2 bytes. -/
theorem c7_pv_truncates_to_cap_minus_one :
    (hues_format_pv_core vsnDefault 2 '#' [] ['a', 'b'] []).out = ['a'] ∧
    (['a'] : List Char) ≠ List.take 2 ['a', 'b'] := by
  decide

theorem natHexAux_zero (f : Nat) : natHexAux f 0 = [] := by
  cases f <;> simp [natHexAux]

set_option maxRecDepth 4000 in
theorem pad2_natHex : ∀ m < 256, pad2 (natHex m) = [digitChar (m / 16), digitChar (m % 16)] := by
  decide

/-- Claim C9: converting a 24-bit value to an RGB color with
`hues_hex_to_color` and formatting it with `hues_color_to_hex` yields `'#'`
followed by the 6-digit lowercase hexadecimal rendering of the original
value, and those six digits determine the original value. -/
theorem c9_hex_color_roundtrip (v : Nat) (hv : v < 16777216) :
    hues_color_to_hex (hues_hex_to_color v) = '#' :: hex6 v ∧
    (hex6 v).length = 6 ∧
    v = v / 1048576 % 16 * 1048576 + v / 65536 % 16 * 65536 + v / 4096 % 16 * 4096 +
        v / 256 % 16 * 256 + v / 16 % 16 * 16 + v % 16 := by
  have h16 : v >>> 16 = v / 65536 := by
    rw [Nat.shiftRight_eq_div_pow]
  have h8 : v >>> 8 = v / 256 := by
    rw [Nat.shiftRight_eq_div_pow]
  have hr : (v >>> 16) &&& 255 = v / 65536 % 256 := by
    rw [h16]
    have := Nat.and_pow_two_sub_one_eq_mod (v / 65536) 8
    simpa using this
  have hg : (v >>> 8) &&& 255 = v / 256 % 256 := by
    rw [h8]
    have := Nat.and_pow_two_sub_one_eq_mod (v / 256) 8
    simpa using this
  have hb : v &&& 255 = v % 256 := by
    have := Nat.and_pow_two_sub_one_eq_mod v 8
    simpa using this
  refine ⟨?_, rfl, by omega⟩
  have e1 : v / 65536 % 256 / 16 = v / 1048576 % 16 := by omega
  have e2 : v / 65536 % 256 % 16 = v / 65536 % 16 := by omega
  have e3 : v / 256 % 256 / 16 = v / 4096 % 16 := by omega
  have e4 : v / 256 % 256 % 16 = v / 256 % 16 := by omega
  have e5 : v % 256 / 16 = v / 16 % 16 := by omega
  have e6 : v % 256 % 16 = v % 16 := by omega
  simp only [hues_color_to_hex, hues_hex_to_color, hr, hg, hb,
    pad2_natHex _ (Nat.mod_lt _ (by norm_num)),
    e1, e2, e3, e4, e5, e6, hex6]
  rfl

/-- Witness for C9 at the concrete 24-bit value `0x123abc`. -/
theorem c9_hex_color_roundtrip_witness :
    hues_color_to_hex (hues_hex_to_color 1194684) = '#' :: hex6 1194684 ∧
    (hex6 1194684).length = 6 ∧
    1194684 = 1194684 / 1048576 % 16 * 1048576 + 1194684 / 65536 % 16 * 65536 +
        1194684 / 4096 % 16 * 4096 + 1194684 / 256 % 16 * 256 +
        1194684 / 16 % 16 * 16 + 1194684 % 16 :=
  c9_hex_color_roundtrip 1194684 (by decide)

theorem pvGo_literal (vsn : VsnModel) (cap : Nat) (pref : Char)
    (fmts : List hues_format) :
    ∀ (tpl : List Char) (fuel : Nat) (st : PvSt), tpl.length ≤ fuel →
      pref ∉ tpl → ('%' : Char) ∉ tpl →
      pvGo vsn cap pref fmts fuel tpl st =
        { out := st.out ++ tpl.take (cap - 1 - st.off),
          off := st.off + min tpl.length (cap - 1 - st.off), args := st.args } := by
  intro tpl
  induction tpl with
  | nil =>
    intro fuel st _ _ _
    cases fuel <;> simp [pvGo]
  | cons c rest ih =>
    intro fuel st hf hp hm
    cases fuel with
    | zero => simp at hf
    | succ f =>
      simp only [List.mem_cons, not_or] at hp hm
      have hstep : pvStep vsn cap pref fmts c rest st = (1, litWrite (cap - 1) st c) := by
        unfold pvStep
        rw [if_neg (fun h => hp.1 h.symm), if_neg (fun h => hm.1 h.symm)]
      have hlen : rest.length ≤ f := by simp at hf; omega
      simp only [pvGo, hstep]
      by_cases hoff : st.off < cap - 1
      · rw [show (1 : Nat) - 1 = 0 from rfl, List.drop_zero]
        simp only [litWrite, if_pos hoff]
        rw [ih f _ hlen hp.2 hm.2]
        have h1 : cap - 1 - st.off = (cap - 1 - (st.off + 1)) + 1 := by omega
        simp only [PvSt.mk.injEq]
        refine ⟨?_, by simp only [List.length_cons]; omega, trivial⟩
        rw [h1, List.take_succ_cons]
        simp
      · rw [show (1 : Nat) - 1 = 0 from rfl, List.drop_zero]
        simp only [litWrite, if_neg hoff]
        rw [ih f st hlen hp.2 hm.2]
        have h0 : cap - 1 - st.off = 0 := by omega
        simp [h0]

theorem cvGo_literal (cap : Nat) (pref : Char) (fmts : List hues_format) :
    ∀ (tpl : List Char) (fuel : Nat) (st : PvSt), tpl.length ≤ fuel →
      pref ∉ tpl →
      cvGo cap pref fmts fuel tpl st =
        { out := st.out ++ tpl.take (cap - st.off),
          off := st.off + min tpl.length (cap - st.off), args := st.args } := by
  intro tpl
  induction tpl with
  | nil =>
    intro fuel st _ _
    cases fuel <;> simp [cvGo]
  | cons c rest ih =>
    intro fuel st hf hp
    cases fuel with
    | zero => simp at hf
    | succ f =>
      simp only [List.mem_cons, not_or] at hp
      have hstep : cvStep cap pref fmts c rest st = (1, litWrite cap st c) := by
        unfold cvStep
        rw [if_neg (fun h => hp.1 h.symm)]
      have hlen : rest.length ≤ f := by simp at hf; omega
      simp only [cvGo, hstep]
      by_cases hoff : st.off < cap
      · rw [show (1 : Nat) - 1 = 0 from rfl, List.drop_zero]
        simp only [litWrite, if_pos hoff]
        rw [ih f _ hlen hp.2]
        have h1 : cap - st.off = (cap - (st.off + 1)) + 1 := by omega
        simp only [PvSt.mk.injEq]
        refine ⟨?_, by simp only [List.length_cons]; omega, trivial⟩
        rw [h1, List.take_succ_cons]
        simp
      · rw [show (1 : Nat) - 1 = 0 from rfl, List.drop_zero]
        simp only [litWrite, if_neg hoff]
        rw [ih f st hlen hp.2]
        have h0 : cap - st.off = 0 := by omega
        simp [h0]

/-- Claim C7, amended: for a template containing neither the prefix
character nor the `%` marker, `hues_format_pv_core` reproduces the input
truncated to `capacity - 1` content bytes (one byte reserved for the
terminator), while `hues_format_cv_core` reproduces it truncated to
`capacity` content bytes. -/
theorem c7_literal_passthrough_amended (vsn : VsnModel) (cap : Nat)
    (pref : Char) (fmts : List hues_format) (tpl : List Char)
    (args : List HuesArg) (_hcap : 1 ≤ cap) (hp : pref ∉ tpl)
    (hm : ('%' : Char) ∉ tpl) :
    (hues_format_pv_core vsn cap pref fmts tpl args).out = tpl.take (cap - 1) ∧
    (hues_format_pv_core vsn cap pref fmts tpl args).written =
      min tpl.length (cap - 1) ∧
    (hues_format_cv_core cap pref fmts tpl args).out = tpl.take cap ∧
    (hues_format_cv_core cap pref fmts tpl args).written = min tpl.length cap := by
  unfold hues_format_pv_core hues_format_cv_core
  rw [pvGo_literal vsn cap pref fmts tpl tpl.length _ le_rfl hp hm,
      cvGo_literal cap pref fmts tpl tpl.length _ le_rfl hp]
  simp

/-- Witness for the amended C7 at capacity 3 and template `"abcd"`. -/
theorem c7_literal_passthrough_amended_witness :
    (hues_format_pv_core vsnDefault 3 '#' [] ['a', 'b', 'c', 'd'] []).out = ['a', 'b'] ∧
    (hues_format_pv_core vsnDefault 3 '#' [] ['a', 'b', 'c', 'd'] []).written = 2 ∧
    (hues_format_cv_core 3 '#' [] ['a', 'b', 'c', 'd'] []).out = ['a', 'b', 'c'] ∧
    (hues_format_cv_core 3 '#' [] ['a', 'b', 'c', 'd'] []).written = 3 :=
  c7_literal_passthrough_amended vsnDefault 3 '#' [] ['a', 'b', 'c', 'd'] []
    (by decide) (by decide) (by decide)

/-- Claim C3, amended: at a prefix occurrence, if some registered specifier
matches then both engines consume exactly `matched length + 1` input
characters; if none matches, `hues_format_pv_core` (and its flexclog twin)
echoes the prefix and consumes exactly 1 character, but
`hues_format_cv_core` echoes the prefix while consuming 2 characters.  In
both engines every iteration consumes at least one character, so the scan
always makes progress and expansion never gets stuck. -/
theorem c3_scan_progress_amended :
    (∀ (vsn : VsnModel) (cap : Nat) (pref : Char) (fmts : List hues_format)
        (rest : List Char) (st : PvSt) (f : hues_format) (len : Nat),
        findSpec fmts rest = some (f, len) →
        (pvStep vsn cap pref fmts pref rest st).1 = len + 1 ∧
        (cvStep cap pref fmts pref rest st).1 = len + 1) ∧
    (∀ (vsn : VsnModel) (cap : Nat) (pref : Char) (fmts : List hues_format)
        (rest : List Char) (st : PvSt),
        findSpec fmts rest = none →
        pvStep vsn cap pref fmts pref rest st = (1, litWrite (cap - 1) st pref)) ∧
    (∀ (cap : Nat) (pref : Char) (fmts : List hues_format)
        (rest : List Char) (st : PvSt),
        findSpec fmts rest = none →
        cvStep cap pref fmts pref rest st = (2, litWrite cap st pref)) ∧
    (∀ (vsn : VsnModel) (cap : Nat) (pref : Char) (fmts : List hues_format)
        (c : Char) (rest : List Char) (st : PvSt),
        1 ≤ (pvStep vsn cap pref fmts c rest st).1) ∧
    (∀ (cap : Nat) (pref : Char) (fmts : List hues_format)
        (c : Char) (rest : List Char) (st : PvSt),
        1 ≤ (cvStep cap pref fmts c rest st).1) := by
  refine ⟨?_, ?_, ?_, ?_, ?_⟩
  · intro vsn cap pref fmts rest st f len h
    constructor
    · simp [pvStep, h]
    · simp [cvStep, h]
  · intro vsn cap pref fmts rest st h
    simp [pvStep, h]
  · intro cap pref fmts rest st h
    simp [cvStep, h]
  · intro vsn cap pref fmts c rest st
    unfold pvStep
    repeat' split
    all_goals simp
  · intro cap pref fmts c rest st
    unfold cvStep
    repeat' split
    all_goals simp

/-- Witness for the amended C3: a matching specifier (`"a"`, matched at
probe length 3 because the template ends) consumes 4 characters in both
engines; with an empty registry the pv engine consumes 1 character and the
cv engine consumes 2. -/
theorem c3_scan_progress_amended_witness :
    ((pvStep vsnDefault 8 '#' [fmtEntryA] '#' ['a'] { out := [], off := 0, args := [] }).1 = 3 + 1 ∧
     (cvStep 8 '#' [fmtEntryA] '#' ['a'] { out := [], off := 0, args := [] }).1 = 3 + 1) ∧
    pvStep vsnDefault 8 '#' [] '#' ['x'] { out := [], off := 0, args := [] } =
      (1, litWrite (8 - 1) { out := [], off := 0, args := [] } '#') ∧
    cvStep 8 '#' [] '#' ['x'] { out := [], off := 0, args := [] } =
      (2, litWrite 8 { out := [], off := 0, args := [] } '#') :=
  ⟨c3_scan_progress_amended.1 vsnDefault 8 '#' [fmtEntryA] ['a']
      { out := [], off := 0, args := [] } fmtEntryA 3 rfl,
   c3_scan_progress_amended.2.1 vsnDefault 8 '#' [] ['x']
      { out := [], off := 0, args := [] } rfl,
   c3_scan_progress_amended.2.2.1 8 '#' [] ['x']
      { out := [], off := 0, args := [] } rfl⟩

theorem strncmpZ_cons (a b : Char) (x y : List Char) (n : Nat) :
    strncmpZ (a :: x) (b :: y) (n + 1) = if a = b then strncmpZ x y n else false := rfl

theorem strncmpZ_cons_nil (a : Char) (x : List Char) (n : Nat) :
    strncmpZ (a :: x) [] (n + 1) = false := rfl

theorem strncmpZ_nil_cons (b : Char) (y : List Char) (n : Nat) :
    strncmpZ [] (b :: y) (n + 1) = false := rfl

theorem strncmpZ_nil_nil (n : Nat) : strncmpZ [] [] (n + 1) = true := rfl

theorem strncmpZ_ab : ∀ (s : List Char), strncmpZ ['a', 'b'] s 3 = true ↔ s = ['a', 'b'] := by
  intro s
  rcases s with _ | ⟨x, _ | ⟨y, _ | ⟨z, t⟩⟩⟩
  · decide
  · by_cases hx : ('a' : Char) = x
    · subst hx; decide
    · rw [show (3 : Nat) = 2 + 1 from rfl, strncmpZ_cons, if_neg hx]
      simp
  · by_cases hx : ('a' : Char) = x
    · subst hx
      by_cases hy : ('b' : Char) = y
      · subst hy; decide
      · rw [show (3 : Nat) = 2 + 1 from rfl, strncmpZ_cons, if_pos rfl,
            show (2 : Nat) = 1 + 1 from rfl, strncmpZ_cons, if_neg hy]
        simp only [iff_false, false_iff, List.cons.injEq, true_and, and_true, not_and,
          Bool.false_eq_true, false_iff]
        exact fun h => hy h.symm
    · rw [show (3 : Nat) = 2 + 1 from rfl, strncmpZ_cons, if_neg hx]
      simp only [Bool.false_eq_true, false_iff, List.cons.injEq, not_and]
      intro h
      exact absurd h.symm hx
  · by_cases hx : ('a' : Char) = x
    · subst hx
      by_cases hy : ('b' : Char) = y
      · subst hy
        rw [show (3 : Nat) = 2 + 1 from rfl, strncmpZ_cons, if_pos rfl,
            show (2 : Nat) = 1 + 1 from rfl, strncmpZ_cons, if_pos rfl,
            show (1 : Nat) = 0 + 1 from rfl, strncmpZ_nil_cons]
        simp
      · rw [show (3 : Nat) = 2 + 1 from rfl, strncmpZ_cons, if_pos rfl,
            show (2 : Nat) = 1 + 1 from rfl, strncmpZ_cons, if_neg hy]
        simp
    · rw [show (3 : Nat) = 2 + 1 from rfl, strncmpZ_cons, if_neg hx]
      simp

theorem findSpecAt_ab (fmts : List hues_format)
    (h : ∃ e ∈ fmts, e.specifier = ['a', 'b']) :
    ∃ e, findSpecAt fmts ['a', 'b'] 3 = some e ∧ e.specifier = ['a', 'b'] := by
  induction fmts with
  | nil =>
    rcases h with ⟨e, he, _⟩
    cases he
  | cons f t ih =>
    by_cases hf : strncmpZ ['a', 'b'] f.specifier 3 = true
    · exact ⟨f, by simp [findSpecAt, List.find?, hf], (strncmpZ_ab _).mp hf⟩
    · have ht : ∃ e ∈ t, e.specifier = ['a', 'b'] := by
        rcases h with ⟨e, he, hs⟩
        rcases List.mem_cons.mp he with rfl | het
        · exact absurd ((strncmpZ_ab _).mpr hs) hf
        · exact ⟨e, het, hs⟩
      rcases ih ht with ⟨e, hfind, hs⟩
      refine ⟨e, ?_, hs⟩
      have hf2 : strncmpZ ['a', 'b'] f.specifier 3 = false := by
        rwa [Bool.not_eq_true] at hf
      simp only [findSpecAt, List.find?, hf2]
      exact hfind

/-- Claim C4: if specifiers `"a"` and `"ab"` are both registered, the
template `prefix + "ab"` resolves (at probe length 3, longest first) to an
entry whose specifier is `"ab"` — not the `"a"` entry — and the whole
expansion is exactly that entry's formatter invocation. -/
theorem c4_longest_match_first (vsn : VsnModel) (cap : Nat) (pref : Char)
    (args : List HuesArg) (fmts : List hues_format) (fa fab : hues_format)
    (_hfa : fa ∈ fmts) (hsa : fa.specifier = ['a'])
    (hfab : fab ∈ fmts) (hsab : fab.specifier = ['a', 'b']) :
    ∃ e, e ∈ fmts ∧ e.specifier = ['a', 'b'] ∧ e.specifier ≠ fa.specifier ∧
      findSpec fmts ['a', 'b'] = some (e, 3) ∧
      hues_format_pv_core vsn cap pref fmts [pref, 'a', 'b'] args =
        { out := (e.format_function ((cap : Int) - 1) 'a' args).bytes,
          written := (e.format_function ((cap : Int) - 1) 'a' args).ret,
          termIn := decide ((e.format_function ((cap : Int) - 1) 'a' args).ret < cap),
          args := (e.format_function ((cap : Int) - 1) 'a' args).args } := by
  obtain ⟨e, hfind, hs⟩ := findSpecAt_ab fmts ⟨fab, hfab, hsab⟩
  have hmem : e ∈ fmts := by
    unfold findSpecAt at hfind
    exact List.mem_of_find?_eq_some hfind
  have hfs : findSpec fmts ['a', 'b'] = some (e, 3) := by
    unfold findSpec
    rw [hfind]
  refine ⟨e, hmem, hs, by rw [hs, hsa]; simp, hfs, ?_⟩
  unfold hues_format_pv_core
  have hstep : pvStep vsn cap pref fmts pref ['a', 'b']
      { out := [], off := 0, args := args } =
      (4, { out := (e.format_function ((cap : Int) - 1) 'a' args).bytes,
            off := (e.format_function ((cap : Int) - 1) 'a' args).ret,
            args := (e.format_function ((cap : Int) - 1) 'a' args).args }) := by
    simp [pvStep, hfs, headCharZ]
  rw [show List.length [pref, 'a', 'b'] = 2 + 1 from rfl]
  simp only [pvGo]
  simp only [hstep]
  rw [show (4 : Nat) - 1 = 3 from rfl, show List.drop 3 ['a', 'b'] = ([] : List Char) from rfl]
  simp only [pvGo]

/-- Witness for C4: with registry `["a" ↦ fmtNull, "ab" ↦ fmtStar]` the
template `"#ab"` invokes the `"ab"` entry. -/
theorem c4_longest_match_first_witness :
    ∃ e, e ∈ [fmtEntryA, fmtEntryAB] ∧ e.specifier = ['a', 'b'] ∧
      e.specifier ≠ fmtEntryA.specifier ∧
      findSpec [fmtEntryA, fmtEntryAB] ['a', 'b'] = some (e, 3) ∧
      hues_format_pv_core vsnDefault 16 '#' [fmtEntryA, fmtEntryAB]
          ['#', 'a', 'b'] [] =
        { out := (e.format_function ((16 : Nat) - 1) 'a' []).bytes,
          written := (e.format_function ((16 : Nat) - 1) 'a' []).ret,
          termIn := decide ((e.format_function ((16 : Nat) - 1) 'a' []).ret < 16),
          args := (e.format_function ((16 : Nat) - 1) 'a' []).args } :=
  c4_longest_match_first vsnDefault 16 '#' [] [fmtEntryA, fmtEntryAB]
    fmtEntryA fmtEntryAB (List.mem_cons_self _ _) rfl
    (List.mem_cons_of_mem _ (List.mem_cons_self _ _)) rfl

theorem probeAccept_some_iff (vsn : VsnModel) (t : List Char)
    (args : List HuesArg) (s : List Char) :
    probeAccept vsn t args = some s ↔
      vsn t args = some s ∧ s.length < 4096 ∧ s ≠ t := by
  unfold probeAccept
  cases hv : vsn t args with
  | none => simp
  | some w =>
    show (if w.length < 4096 ∧ List.take 4095 w ≠ t then some w else none) = some s ↔
      some w = some s ∧ s.length < 4096 ∧ s ≠ t
    by_cases hc : w.length < 4096 ∧ w.take 4095 ≠ t
    · rw [if_pos hc]
      have hw : w.take 4095 = w := List.take_of_length_le (by omega)
      rw [hw] at hc
      constructor
      · rintro ⟨⟩
        exact ⟨rfl, hc⟩
      · rintro ⟨h1, _, _⟩
        cases h1
        rfl
    · rw [if_neg hc]
      constructor
      · rintro ⟨⟩
      · rintro ⟨h1, h2, h3⟩
        cases h1
        have hw : s.take 4095 = s := List.take_of_length_le (by omega)
        exact absurd ⟨h2, by rw [hw]; exact h3⟩ hc

theorem probeAccept_none_iff (vsn : VsnModel) (t : List Char)
    (args : List HuesArg) :
    probeAccept vsn t args = none ↔
      ∀ w, vsn t args = some w → ¬ (w.length < 4096 ∧ w ≠ t) := by
  constructor
  · intro h w hw hc
    have : probeAccept vsn t args = some w :=
      (probeAccept_some_iff vsn t args w).mpr ⟨hw, hc.1, hc.2⟩
    rw [h] at this
    cases this
  · intro h
    cases hp : probeAccept vsn t args with
    | none => rfl
    | some s =>
      have := (probeAccept_some_iff vsn t args s).mp hp
      exact absurd ⟨this.2.1, this.2.2⟩ (h s this.1)

/-- Claim C5: a probe of the secondary conversion syntax is accepted exactly
when the natively formatted result has non-negative size, fits the scratch
buffer, and is not byte-identical to the probed token; the probe loop tries
lengths 1, 2, 3 and the shortest accepted length wins; on acceptance the
formatted result is copied into the output (bounded by the remaining room),
exactly one argument is consumed from the true cursor, and the scan advances
past `probed length + 1` characters. -/
theorem c5_probe_acceptance :
    (∀ (vsn : VsnModel) (t : List Char) (args : List HuesArg) (s : List Char),
        probeAccept vsn t args = some s ↔
          vsn t args = some s ∧ s.length < 4096 ∧ s ≠ t) ∧
    (∀ (vsn : VsnModel) (tpl : List Char) (args : List HuesArg)
        (len : Nat) (s : List Char),
        pvProbe vsn tpl args = some (len, s) ↔
          ((len = 1 ∨ len = 2 ∨ len = 3) ∧
            probeAccept vsn (tpl.take (len + 1)) args = some s ∧
            ∀ m, 1 ≤ m → m < len → probeAccept vsn (tpl.take (m + 1)) args = none)) ∧
    (∀ (vsn : VsnModel) (cap : Nat) (pref : Char) (fmts : List hues_format)
        (rest : List Char) (st : PvSt) (len : Nat) (s : List Char),
        pref ≠ '%' →
        pvProbe vsn ('%' :: rest) st.args = some (len, s) →
        pvStep vsn cap pref fmts '%' rest st =
          (len + 1,
            { out := st.out ++ s.take (cap - 1 - st.off),
              off := st.off + (s.take (cap - 1 - st.off)).length,
              args := st.args.drop 1 })) := by
  refine ⟨probeAccept_some_iff, ?_, ?_⟩
  · intro vsn tpl args len s
    unfold pvProbe
    cases h1 : probeAccept vsn (tpl.take 2) args with
    | some s1 =>
      show some (1, s1) = some (len, s) ↔ _
      simp only [Option.some.injEq, Prod.mk.injEq]
      constructor
      · rintro ⟨rfl, rfl⟩
        exact ⟨Or.inl rfl, h1, fun m hm1 hm2 => absurd hm1 (by omega)⟩
      · rintro ⟨hlen, hacc, hmin⟩
        rcases hlen with rfl | rfl | rfl
        · have h' := h1.symm.trans hacc
          injection h' with h'
          exact ⟨rfl, h'⟩
        · exact Option.noConfusion (h1.symm.trans (hmin 1 (by omega) (by omega)))
        · exact Option.noConfusion (h1.symm.trans (hmin 1 (by omega) (by omega)))
    | none =>
      cases h2 : probeAccept vsn (tpl.take 3) args with
      | some s2 =>
        show some (2, s2) = some (len, s) ↔ _
        simp only [Option.some.injEq, Prod.mk.injEq]
        constructor
        · rintro ⟨rfl, rfl⟩
          refine ⟨Or.inr (Or.inl rfl), h2, ?_⟩
          intro m hm1 hm2
          have hm : m = 1 := by omega
          subst hm
          exact h1
        · rintro ⟨hlen, hacc, hmin⟩
          rcases hlen with rfl | rfl | rfl
          · exact Option.noConfusion (h1.symm.trans hacc)
          · have h' := h2.symm.trans hacc
            injection h' with h'
            exact ⟨rfl, h'⟩
          · exact Option.noConfusion (h2.symm.trans (hmin 2 (by omega) (by omega)))
      | none =>
        cases h3 : probeAccept vsn (tpl.take 4) args with
        | some s3 =>
          show some (3, s3) = some (len, s) ↔ _
          simp only [Option.some.injEq, Prod.mk.injEq]
          constructor
          · rintro ⟨rfl, rfl⟩
            refine ⟨Or.inr (Or.inr rfl), h3, ?_⟩
            intro m hm1 hm2
            interval_cases m
            · exact h1
            · exact h2
          · rintro ⟨hlen, hacc, hmin⟩
            rcases hlen with rfl | rfl | rfl
            · exact Option.noConfusion (h1.symm.trans hacc)
            · exact Option.noConfusion (h2.symm.trans hacc)
            · have h' := h3.symm.trans hacc
              injection h' with h'
              exact ⟨rfl, h'⟩
        | none =>
          show (none : Option (Nat × List Char)) = some (len, s) ↔ _
          constructor
          · rintro ⟨⟩
          · rintro ⟨hlen, hacc, _⟩
            rcases hlen with rfl | rfl | rfl
            · exact Option.noConfusion (h1.symm.trans hacc)
            · exact Option.noConfusion (h2.symm.trans hacc)
            · exact Option.noConfusion (h3.symm.trans hacc)
  · intro vsn cap pref fmts rest st len s hp hpr
    unfold pvStep
    rw [if_neg (fun h => hp h.symm), if_pos rfl, hpr]

/-- Witness for C5 with the concrete `"%d"` token and one integer argument:
the probe accepts at length 1 and the step consumes the argument. -/
theorem c5_probe_acceptance_witness :
    (probeAccept vsnDefault ['%', 'd'] [HuesArg.intArg 5] = some ['5'] ↔
      vsnDefault ['%', 'd'] [HuesArg.intArg 5] = some ['5'] ∧
        (['5'] : List Char).length < 4096 ∧ (['5'] : List Char) ≠ ['%', 'd']) ∧
    pvStep vsnDefault 64 '#' [] '%' ['d']
        { out := [], off := 0, args := [HuesArg.intArg 5] } =
      (1 + 1,
        { out := [] ++ List.take (64 - 1 - 0) ['5'],
          off := 0 + (List.take (64 - 1 - 0) ['5']).length,
          args := List.drop 1 [HuesArg.intArg 5] }) :=
  ⟨c5_probe_acceptance.1 vsnDefault ['%', 'd'] [HuesArg.intArg 5] ['5'],
   c5_probe_acceptance.2.2 vsnDefault 64 '#' [] ['d']
     { out := [], off := 0, args := [HuesArg.intArg 5] } 1 ['5'] (by decide) rfl⟩

theorem fcProbeAccept_eq : fcProbeAccept = probeAccept := rfl

theorem fcProbe_eq : fcProbe = pvProbe := rfl

theorem fcFindSpecAt_map (fmts : List hues_format) (rest : List Char) (len : Nat) :
    fcFindSpecAt (fmts.map fcOfHues) rest len =
      (findSpecAt fmts rest len).map fcOfHues := by
  induction fmts with
  | nil => rfl
  | cons f t ih =>
    simp only [List.map_cons, fcFindSpecAt, findSpecAt, List.find?_cons, fcOfHues]
    cases h : strncmpZ rest f.specifier len with
    | true => simp [fcOfHues]
    | false =>
      simp only []
      exact ih

theorem fcFindSpec_map (fmts : List hues_format) (rest : List Char) :
    fcFindSpec (fmts.map fcOfHues) rest =
      (findSpec fmts rest).map (fun p => (fcOfHues p.1, p.2)) := by
  unfold fcFindSpec findSpec
  rw [fcFindSpecAt_map, fcFindSpecAt_map, fcFindSpecAt_map]
  cases findSpecAt fmts rest 3 with
  | some f => rfl
  | none =>
    cases findSpecAt fmts rest 2 with
    | some f => rfl
    | none =>
      cases findSpecAt fmts rest 1 with
      | some f => rfl
      | none => rfl

theorem fcStep_map (vsn : VsnModel) (cap : Nat) (pref : Char)
    (fmts : List hues_format) (c : Char) (rest : List Char) (st : PvSt) :
    fcStep vsn cap pref (fmts.map fcOfHues) c rest st =
      pvStep vsn cap pref fmts c rest st := by
  unfold fcStep pvStep
  rw [fcFindSpec_map, fcProbe_eq]
  cases findSpec fmts rest with
  | some p => rfl
  | none => rfl

theorem fcGo_map (vsn : VsnModel) (cap : Nat) (pref : Char)
    (fmts : List hues_format) :
    ∀ (fuel : Nat) (tpl : List Char) (st : PvSt),
      fcGo vsn cap pref (fmts.map fcOfHues) fuel tpl st =
        pvGo vsn cap pref fmts fuel tpl st := by
  intro fuel
  induction fuel with
  | zero =>
    intro tpl st
    cases tpl <;> rfl
  | succ f ih =>
    intro tpl st
    cases tpl with
    | nil => rfl
    | cons c rest =>
      simp only [fcGo, pvGo, fcStep_map]
      exact ih _ _

/-- Claim C10: the two duplicated expansion engines are extensionally equal:
for every capacity, prefix, registry, template and argument cursor,
`fc_fmt_pvc` (on the corresponding flexclog registry) and
`hues_format_pv_core` produce the same output text, the same returned
written length, the same terminator placement and the same final cursor. -/
theorem c10_engines_equivalent (vsn : VsnModel) (cap : Nat) (pref : Char)
    (fmts : List hues_format) (tpl : List Char) (args : List HuesArg) :
    fc_fmt_pvc vsn cap pref (fmts.map fcOfHues) tpl args =
      hues_format_pv_core vsn cap pref fmts tpl args := by
  unfold fc_fmt_pvc hues_format_pv_core
  rw [fcGo_map]

theorem natDecAux_length_le : ∀ (k f n : Nat), n < 10 ^ k → (natDecAux f n).length ≤ k := by
  intro k
  induction k with
  | zero =>
    intro f n h
    have hn : n = 0 := by simpa using h
    subst hn
    cases f <;> simp [natDecAux]
  | succ k ih =>
    intro f n h
    cases f with
    | zero => simp [natDecAux]
    | succ f =>
      by_cases hn : n = 0
      · simp [natDecAux, hn]
      · have hd : n / 10 < 10 ^ k := by
          rw [Nat.div_lt_iff_lt_mul (by norm_num)]
          calc n < 10 ^ (k + 1) := h
          _ = 10 ^ k * 10 := by rw [pow_succ]
        simp only [natDecAux, if_neg hn, List.length_cons]
        have := ih f (n / 10) hd
        omega

theorem natDecimal_length_le (n k : Nat) (hk : 1 ≤ k) (h : n < 10 ^ k) :
    (natDecimal n).length ≤ k := by
  unfold natDecimal
  by_cases hn : n = 0
  · rw [if_pos hn]
    simpa using hk
  · rw [if_neg hn, List.length_reverse]
    exact natDecAux_length_le k n n h

theorem intDecimal_length_le (n : Int) (k : Nat) (hk : 1 ≤ k)
    (h : n.natAbs < 10 ^ k) : (intDecimal n).length ≤ k + 1 := by
  unfold intDecimal
  by_cases hn : n < 0
  · rw [if_pos hn, List.length_cons]
    have := natDecimal_length_le n.natAbs k hk h
    omega
  · rw [if_neg hn]
    have h2 : n.toNat = n.natAbs := by omega
    rw [h2]
    have := natDecimal_length_le n.natAbs k hk h
    omega

theorem natDecAux_digits : ∀ (f n : Nat) (c : Char), c ∈ natDecAux f n →
    ∃ m, m < 10 ∧ c = digitChar m := by
  intro f
  induction f with
  | zero =>
    intro n c h
    simp [natDecAux] at h
  | succ f ih =>
    intro n c h
    by_cases hn : n = 0
    · simp [natDecAux, hn] at h
    · simp only [natDecAux, if_neg hn, List.mem_cons] at h
      rcases h with rfl | h
      · exact ⟨n % 10, Nat.mod_lt _ (by norm_num), rfl⟩
      · exact ih _ _ h

theorem natDecimal_digits (n : Nat) (c : Char) (h : c ∈ natDecimal n) :
    ∃ m, m < 10 ∧ c = digitChar m := by
  unfold natDecimal at h
  by_cases hn : n = 0
  · rw [if_pos hn] at h
    simp at h
    exact ⟨0, by norm_num, by rw [h]; rfl⟩
  · rw [if_neg hn, List.mem_reverse] at h
    exact natDecAux_digits n n c h

theorem digitChar_props : ∀ m, m < 10 → digitChar m ≠ 'd' ∧ digitChar m ≠ '\n' ∧
    digitChar m ≠ '%' ∧ digitChar m ≠ Char.ofNat 0 := by
  decide

theorem natDecimal_ne_nil (n : Nat) : natDecimal n ≠ [] := by
  unfold natDecimal
  by_cases hn : n = 0
  · simp [hn]
  · rw [if_neg hn]
    simp only [ne_eq, List.reverse_eq_nil_iff]
    cases n with
    | zero => exact absurd rfl hn
    | succ m => simp [natDecAux]

theorem intDecimal_ne_nil (n : Int) : intDecimal n ≠ [] := by
  unfold intDecimal
  by_cases hn : n < 0
  · simp [hn]
  · rw [if_neg hn]
    exact natDecimal_ne_nil _

theorem intDecimal_getLast_digit (n : Int) :
    ∃ m, m < 10 ∧ (intDecimal n).getLast? = some (digitChar m) := by
  by_cases hn : n < 0
  · have hl : natDecimal n.natAbs ≠ [] := natDecimal_ne_nil _
    have h1 : (intDecimal n).getLast? = (natDecimal n.natAbs).getLast? := by
      unfold intDecimal
      rw [if_pos hn]
      exact List.getLast?_append_of_ne_nil ['-'] hl
    rw [h1, List.getLast?_eq_getLast_of_ne_nil hl]
    obtain ⟨m, hm, hc⟩ := natDecimal_digits _ _ (List.getLast_mem hl)
    exact ⟨m, hm, by rw [hc]⟩
  · have hl : natDecimal n.toNat ≠ [] := natDecimal_ne_nil _
    have h1 : (intDecimal n).getLast? = (natDecimal n.toNat).getLast? := by
      unfold intDecimal
      rw [if_neg hn]
    rw [h1, List.getLast?_eq_getLast_of_ne_nil hl]
    obtain ⟨m, hm, hc⟩ := natDecimal_digits _ _ (List.getLast_mem hl)
    exact ⟨m, hm, by rw [hc]⟩

theorem hues_log_message_v_eq (vsn : VsnModel) (conf : hues_configuration)
    (junk : Option hues_level_format) (msg : hues_message)
    (args : List HuesArg) (e : hues_level_format)
    (hmin : ¬ msg.level.level < conf.minimum_level)
    (hthm : ((conf.theme.take conf.levels_count).find?
        (fun t => t.level == msg.level.level)).orElse (fun _ => junk) = some e) :
    hues_log_message_v vsn conf junk msg args =
      { console := hues_render_body vsn conf msg args e, err := [] } := by
  unfold hues_log_message_v
  rw [if_neg hmin, hthm]

theorem sizeSub_of_le (a b : Nat) (h : b ≤ a) (ha : a < 18446744073709551616) :
    sizeSub a b = a - b := by
  unfold sizeSub
  omega

theorem getD_length_sub_one (l : List Char) (d : Char) (h : l ≠ []) :
    l.getD (l.length - 1) d = l.getLast h := by
  induction l with
  | nil => exact absurd rfl h
  | cons a t ih =>
    cases t with
    | nil => rfl
    | cons b t2 =>
      have h2 : b :: t2 ≠ [] := List.cons_ne_nil _ _
      rw [List.getLast_cons h2, ← ih h2]
      have h3 : (a :: b :: t2).length - 1 = ((b :: t2).length - 1) + 1 := by
        simp [List.length_cons]
      rw [h3, List.getD_cons_succ]

theorem renderTail_newline (OUT : List Char) (W : Nat)
    (hlen : OUT.length = W) (hnl : OUT.getLast? = some '\n') (hfit : W ≤ 4092) :
    OUT.take (if OUT.getD (W - 1) (Char.ofNat 0) = '\n' then W - 1 else W) ++
      escRst.take (sizeSub 4096
        (if OUT.getD (W - 1) (Char.ofNat 0) = '\n' then W - 1 else W) - 1) ++
      (if OUT.getD (W - 1) (Char.ofNat 0) = '\n' then ['\n'] else []) =
    OUT.dropLast ++ escRst ++ ['\n'] := by
  have hne : OUT ≠ [] := by
    intro h
    rw [h] at hnl
    cases hnl
  have hlast : OUT.getLast hne = '\n' := by
    have h2 := List.getLast?_eq_getLast_of_ne_nil hne
    rw [hnl] at h2
    injection h2 with h2
    exact h2.symm
  have hgd : OUT.getD (W - 1) (Char.ofNat 0) = '\n' := by
    rw [← hlen, getD_length_sub_one OUT _ hne, hlast]
  rw [hgd, if_pos rfl, if_pos rfl]
  have h1 : sizeSub 4096 (W - 1) = 4096 - (W - 1) :=
    sizeSub_of_le _ _ (by omega) (by norm_num)
  rw [h1]
  have h2 : escRst.take (4096 - (W - 1) - 1) = escRst := by
    apply List.take_of_length_le
    have h3 : escRst.length = 4 := rfl
    omega
  rw [h2]
  have h3 : OUT.take (W - 1) = OUT.dropLast := by
    rw [← hlen, ← List.dropLast_eq_take]
  rw [h3]

/-- Claim C8: whenever a rendered message's accumulated content ends in a
newline (and the content length matches the written counter, i.e. no
formatter over-reported, and the content leaves room for the reset), the
emitted console bytes place the reset escape sequence immediately before
the final newline, not after it. -/
theorem c8_reset_before_trailing_newline (vsn : VsnModel)
    (conf : hues_configuration) (junk : Option hues_level_format)
    (msg : hues_message) (args : List HuesArg) (e : hues_level_format)
    (w0 w1 : List Char) (rh rb : FmtCoreResult) (out : List Char) (written : Nat)
    (hmin : ¬ msg.level.level < conf.minimum_level)
    (hthm : ((conf.theme.take conf.levels_count).find?
        (fun t => t.level == msg.level.level)).orElse (fun _ => junk) = some e)
    (hw0 : w0 = escBg e.background_color)
    (hw1 : w1 = escFg e.foreground_color)
    (hrh : rh = hues_format_pv_core vsn 4096 conf.pref conf.formats
        conf.header_format args)
    (hrb : rb = hues_format_pv_core vsn
        (sizeSub 4096 (w0.length + w1.length + rh.written))
        conf.pref conf.formats msg.contents rh.args)
    (hout : out = w0 ++ w1 ++ rh.out ++ rb.out)
    (hwr : written = w0.length + w1.length + rh.written + rb.written)
    (hlen : out.length = written)
    (hnl : out.getLast? = some '\n')
    (hfit : written ≤ 4092) :
    (hues_log_message_v vsn conf junk msg args).console =
      out.dropLast ++ escRst ++ ['\n'] := by
  subst hwr
  subst hout
  subst hrb
  subst hrh
  subst hw1
  subst hw0
  rw [hues_log_message_v_eq vsn conf junk msg args e hmin hthm]
  show hues_render_body vsn conf msg args e = _
  simp only [hues_render_body]
  exact renderTail_newline _ _ hlen hnl hfit

/-- Witness for C8: a concrete `INFO` render whose body `"hi\n"` ends in a
newline emits the reset sequence between `"hi"` and the final newline. -/
theorem c8_reset_before_trailing_newline_witness :
    (hues_log_message_v vsnDefault
        { minimum_level := 0, header_format := [], pref := '#',
          theme := [{ level := 2, background_color := ⟨1, 1, 1⟩,
                      foreground_color := ⟨2, 2, 2⟩ }],
          levels_count := 7, formats := [] }
        none { level := lvlINFO, contents := ['h', 'i', '\n'] } []).console =
      ("\x1b[48;2;1;1;1m\x1b[38;2;2;2;2mhi\n".toList).dropLast ++ escRst ++ ['\n'] :=
  c8_reset_before_trailing_newline vsnDefault
    { minimum_level := 0, header_format := [], pref := '#',
      theme := [{ level := 2, background_color := ⟨1, 1, 1⟩,
                  foreground_color := ⟨2, 2, 2⟩ }],
      levels_count := 7, formats := [] }
    none { level := lvlINFO, contents := ['h', 'i', '\n'] } []
    { level := 2, background_color := ⟨1, 1, 1⟩, foreground_color := ⟨2, 2, 2⟩ }
    _ _ _ _ ("\x1b[48;2;1;1;1m\x1b[38;2;2;2;2mhi\n".toList) 29
    (by decide) (by decide) rfl rfl rfl rfl (by decide) (by decide)
    (by decide) (by decide) (by decide)

theorem intDecimal_ne_pct_d (n : Int) : intDecimal n ≠ ['%', 'd'] := by
  obtain ⟨m, hm, hlast⟩ := intDecimal_getLast_digit n
  intro h
  rw [h] at hlast
  have h2 : (['%', 'd'] : List Char).getLast? = some 'd' := rfl
  rw [h2] at hlast
  injection hlast with h3
  exact (digitChar_props m hm).1 h3.symm

theorem pvProbe_d (n : Int) (rest2 : List HuesArg) (hn : n.natAbs < 10 ^ 9) :
    pvProbe vsnDefault ['%', 'd'] (HuesArg.intArg n :: rest2) =
      some (1, intDecimal n) := by
  have hlen10 : (intDecimal n).length ≤ 10 :=
    intDecimal_length_le n 9 (by norm_num) hn
  have hacc : probeAccept vsnDefault (List.take 2 ['%', 'd'])
      (HuesArg.intArg n :: rest2) = some (intDecimal n) := by
    rw [probeAccept_some_iff]
    exact ⟨rfl, by omega, intDecimal_ne_pct_d n⟩
  unfold pvProbe
  rw [hacc]

theorem header_L_run (L : hues_level_struct) (rest2 : List HuesArg)
    (hname : L.name.length ≤ 4094) :
    hues_format_pv_core vsnDefault 4096 '#' [hues_L_entry] ['#', 'L']
        (HuesArg.lvlArg L :: rest2) =
      { out := L.name, written := L.name.length,
        termIn := decide (L.name.length < 4096), args := rest2 } := by
  have hsnpr : snprWrites (((4096 : Nat) : Int) - 1 - (((0 : Nat)) : Int)) L.name
      = L.name := by
    rw [show (((4096 : Nat) : Int) - 1 - (((0 : Nat)) : Int)) = (4095 : Int) by
      norm_num]
    unfold snprWrites
    rw [if_neg (by norm_num), if_neg (by norm_num)]
    exact List.take_of_length_le (by
      rw [show ((4095 : Int).toNat - 1) = 4094 from rfl]
      omega)
  have hstep : pvStep vsnDefault 4096 '#' [hues_L_entry] '#' ['L']
      { out := [], off := 0, args := HuesArg.lvlArg L :: rest2 } =
      (3 + 1, { out := L.name, off := L.name.length, args := rest2 }) := by
    unfold pvStep
    rw [if_pos rfl,
      show findSpec [hues_L_entry] ['L'] = some (hues_L_entry, 3) from rfl]
    simp only [hues_L_entry, hues_function_format_level, headCharZ, List.headD]
    rw [hsnpr]
    simp
  unfold hues_format_pv_core
  rw [show List.length ['#', 'L'] = 1 + 1 from rfl]
  simp only [pvGo, hstep]

theorem body_d_run (n : Int) (CB : Nat) (hCB : 11 ≤ CB)
    (hn : n.natAbs < 10 ^ 9) :
    hues_format_pv_core vsnDefault CB '#' [hues_L_entry] ['%', 'd']
        [HuesArg.intArg n] =
      { out := intDecimal n, written := (intDecimal n).length,
        termIn := decide ((intDecimal n).length < CB), args := [] } := by
  have hlen10 : (intDecimal n).length ≤ 10 :=
    intDecimal_length_le n 9 (by norm_num) hn
  have htake : (intDecimal n).take (CB - 1 - 0) = intDecimal n :=
    List.take_of_length_le (by omega)
  have hstep : pvStep vsnDefault CB '#' [hues_L_entry] '%' ['d']
      { out := [], off := 0, args := [HuesArg.intArg n] } =
      (1 + 1, { out := intDecimal n, off := (intDecimal n).length, args := [] }) := by
    unfold pvStep
    rw [if_neg (by decide), if_pos rfl, pvProbe_d n [] hn]
    simp only [List.drop_one, List.tail_cons]
    rw [htake]
    simp
  unfold hues_format_pv_core
  rw [show List.length ['%', 'd'] = 1 + 1 from rfl]
  simp only [pvGo, hstep]

theorem renderTail_no_newline (OUT : List Char) (W : Nat)
    (hlen : OUT.length = W)
    (hnl : OUT.getD (W - 1) (Char.ofNat 0) ≠ '\n')
    (hfit : W ≤ 4091) :
    OUT.take (if OUT.getD (W - 1) (Char.ofNat 0) = '\n' then W - 1 else W) ++
      escRst.take (sizeSub 4096
        (if OUT.getD (W - 1) (Char.ofNat 0) = '\n' then W - 1 else W) - 1) ++
      (if OUT.getD (W - 1) (Char.ofNat 0) = '\n' then ['\n'] else []) =
    OUT ++ escRst := by
  rw [if_neg hnl, if_neg hnl]
  rw [sizeSub_of_le 4096 W (by omega) (by norm_num)]
  rw [List.take_of_length_le (le_of_eq hlen)]
  have h2 : escRst.take (4096 - W - 1) = escRst := by
    apply List.take_of_length_le
    rw [show escRst.length = 4 from rfl]
    omega
  rw [h2]
  simp

/-- Claim C2, amended: the header's `#L` consumes exactly one argument — the
severity value placed ahead of the caller's arguments (as the logging macros
do), not the caller's integer; the body's `%d` then consumes the caller's
integer from the shared cursor; and the rendered output contains the
severity name immediately followed by the integer's decimal text. -/
theorem c2_cursor_sharing_amended (L : hues_level_struct) (n : Int)
    (hname : L.name.length ≤ 1000) (hn : n.natAbs < 10 ^ 9) :
    (hues_format_pv_core vsnDefault 4096 '#' [hues_L_entry] ['#', 'L']
        [HuesArg.lvlArg L, HuesArg.intArg n]).args = [HuesArg.intArg n] ∧
    (hues_log_message_v vsnDefault (c2conf L) none (c2msg L)
        [HuesArg.lvlArg L, HuesArg.intArg n]).console =
      escBg ⟨24, 24, 24⟩ ++ escFg ⟨24, 24, 24⟩ ++ L.name ++ intDecimal n ++ escRst ∧
    ∃ pre post,
      (hues_log_message_v vsnDefault (c2conf L) none (c2msg L)
          [HuesArg.lvlArg L, HuesArg.intArg n]).console =
        pre ++ (L.name ++ intDecimal n) ++ post := by
  have hH := header_L_run L [HuesArg.intArg n] (by omega)
  have hlen10 : (intDecimal n).length ≤ 10 :=
    intDecimal_length_le n 9 (by norm_num) hn
  have hw0len : (escBg (⟨24, 24, 24⟩ : hues_color)).length = 16 := rfl
  have hw1len : (escFg (⟨24, 24, 24⟩ : hues_color)).length = 16 := rfl
  have hdne : intDecimal n ≠ [] := intDecimal_ne_nil n
  have hcb : sizeSub 4096 (32 + L.name.length) = 4064 - L.name.length := by
    rw [sizeSub_of_le 4096 (32 + L.name.length) (by omega) (by norm_num)]
    omega
  have hbody := body_d_run n (4064 - L.name.length) (by omega) hn
  have hmin : ¬ (c2msg L).level.level < (c2conf L).minimum_level := by
    simp [c2msg, c2conf]
  have hthm : (((c2conf L).theme.take (c2conf L).levels_count).find?
      (fun t => t.level == (c2msg L).level.level)).orElse
      (fun _ => (none : Option hues_level_format)) = some (c2entry L) := by
    simp only [c2conf, c2msg]
    rw [show List.take 7 [c2entry L] = [c2entry L] from rfl]
    simp [List.find?, c2entry, Option.orElse]
  have hmain : (hues_log_message_v vsnDefault (c2conf L) none (c2msg L)
      [HuesArg.lvlArg L, HuesArg.intArg n]).console =
      escBg ⟨24, 24, 24⟩ ++ escFg ⟨24, 24, 24⟩ ++ L.name ++ intDecimal n ++
        escRst := by
    rw [hues_log_message_v_eq vsnDefault (c2conf L) none (c2msg L)
      [HuesArg.lvlArg L, HuesArg.intArg n] (c2entry L) hmin hthm]
    simp only [hues_render_body, c2conf, c2msg, c2entry, hH, hw0len, hw1len,
      Nat.reduceAdd, hcb, hbody]
    refine renderTail_no_newline _ _ ?_ ?_ ?_
    · simp only [List.length_append, hw0len, hw1len]
    · obtain ⟨m, hm, hlast⟩ := intDecimal_getLast_digit n
      have hOne : escBg ⟨24, 24, 24⟩ ++ escFg ⟨24, 24, 24⟩ ++ L.name ++
          intDecimal n ≠ [] := by
        simp [hdne]
      have hW : (escBg ⟨24, 24, 24⟩ ++ escFg ⟨24, 24, 24⟩ ++ L.name ++
          intDecimal n).length =
          32 + L.name.length + (intDecimal n).length := by
        simp only [List.length_append, hw0len, hw1len]
      rw [← hW, getD_length_sub_one _ _ hOne]
      have hgl : (escBg ⟨24, 24, 24⟩ ++ escFg ⟨24, 24, 24⟩ ++ L.name ++
          intDecimal n).getLast? = some (digitChar m) := by
        rw [List.getLast?_append_of_ne_nil _ hdne]
        exact hlast
      have h2 := List.getLast?_eq_getLast_of_ne_nil hOne
      rw [hgl] at h2
      injection h2 with h3
      rw [← h3]
      exact (digitChar_props m hm).2.1
    · omega
  refine ⟨by rw [hH], hmain, ?_⟩
  · exact ⟨escBg ⟨24, 24, 24⟩ ++ escFg ⟨24, 24, 24⟩, escRst,
      by rw [hmain]; simp [List.append_assoc]⟩

/-- Witness for the amended C2 at level `INFO` and integer 42. -/
theorem c2_cursor_sharing_amended_witness :
    (hues_format_pv_core vsnDefault 4096 '#' [hues_L_entry] ['#', 'L']
        [HuesArg.lvlArg lvlINFO, HuesArg.intArg 42]).args = [HuesArg.intArg 42] ∧
    (hues_log_message_v vsnDefault (c2conf lvlINFO) none (c2msg lvlINFO)
        [HuesArg.lvlArg lvlINFO, HuesArg.intArg 42]).console =
      escBg ⟨24, 24, 24⟩ ++ escFg ⟨24, 24, 24⟩ ++ lvlINFO.name ++
        intDecimal 42 ++ escRst ∧
    ∃ pre post,
      (hues_log_message_v vsnDefault (c2conf lvlINFO) none (c2msg lvlINFO)
          [HuesArg.lvlArg lvlINFO, HuesArg.intArg 42]).console =
        pre ++ (lvlINFO.name ++ intDecimal 42) ++ post :=
  c2_cursor_sharing_amended lvlINFO 42 (by decide) (by decide)
